import Mathlib

set_option maxRecDepth 10000

/-! Shallow embedding of the GetGSA document-ingestion core (src/main.py):
label-anchored field extraction via regex searches, field validation,
NAICS-to-SIN mapping, and checklist generation.  Text is modelled as
`List Char`; each Python `re` pattern of the source is embedded as an
explicit matcher with the same leftmost-match and backtracking behaviour. -/

/-- ASCII whitespace, as matched by Python regex whitespace and str.strip. -/
def isPySpace (c : Char) : Bool :=
  c = ' ' || c = '\t' || c = '\n' || c = '\r' || c = '\x0b' || c = '\x0c'

/-- Python str.strip: remove leading and trailing whitespace. -/
def pyStrip (s : List Char) : List Char :=
  ((s.dropWhile isPySpace).reverse.dropWhile isPySpace).reverse

/-- Python str.split(sep) for a one-character separator: splits on every
occurrence, keeping empty parts; the result is always nonempty. -/
def pySplit (sep : Char) : List Char → List (List Char)
  | [] => [[]]
  | c :: cs =>
    if c = sep then [] :: pySplit sep cs
    else
      match pySplit sep cs with
      | [] => [[c]]
      | p :: ps => (c :: p) :: ps

/-- Python str.lower on ASCII text. -/
def pyLower (s : List Char) : List Char := s.map Char.toLower

/-- Python re.search: try the pattern matcher at every start position of the
text, leftmost position first. -/
def reSearch {α : Type} (p : List Char → Option α) : List Char → Option α
  | [] => p []
  | c :: cs =>
    match p (c :: cs) with
    | some r => some r
    | none => reSearch p cs

/-- Consume the given label case-insensitively at the start of the text,
returning the remaining text. -/
def stripLabelCI : List Char → List Char → Option (List Char)
  | [], rest => some rest
  | _ :: _, [] => none
  | l :: ls, c :: cs => if l.toLower = c.toLower then stripLabelCI ls cs else none

/-- The class [A-Z0-9] under re.IGNORECASE (so also lowercase letters). -/
def isAlnum (c : Char) : Bool := c.isAlpha || c.isDigit

/-- The regex word class: letters, digits and underscore (ASCII model). -/
def isWordChar (c : Char) : Bool := c.isAlpha || c.isDigit || c = '_'

/-- The NAICS capture class: digits, commas and whitespace. -/
def isNaicsChar (c : Char) : Bool := c.isDigit || c = ',' || isPySpace c

/-- Tail of patterns shaped label + whitespace + nonempty token of a class
disjoint from whitespace (UEI, DUNS, SAM word): greedy whitespace cannot
backtrack into such a class, so the token starts after the maximal run. -/
def classTokenTail (cls : Char → Bool) (rest : List Char) : Option (List Char) :=
  let r := rest.dropWhile isPySpace
  let tok := r.takeWhile cls
  if tok = [] then none else some tok

def ueiAt (t : List Char) : Option (List Char) :=
  (stripLabelCI "uei:".data t).bind (classTokenTail isAlnum)

def dunsAt (t : List Char) : Option (List Char) :=
  (stripLabelCI "duns:".data t).bind (classTokenTail Char.isDigit)

def samAt (t : List Char) : Option (List Char) :=
  (stripLabelCI "sam.gov:".data t).bind (classTokenTail isWordChar)

/-- Tail of the NAICS pattern: greedy whitespace, then a nonempty capture in
the digits/commas/whitespace class.  Because whitespace belongs to the class,
the greedy whitespace backtracks one character when the whole class run is
whitespace, so the capture keeps the last whitespace character in that case. -/
def naicsTail (rest : List Char) : Option (List Char) :=
  let run := rest.takeWhile isNaicsChar
  if run = [] then none
  else some (run.drop (min (rest.takeWhile isPySpace).length (run.length - 1)))

def naicsAt (t : List Char) : Option (List Char) :=
  (stripLabelCI "naics:".data t).bind naicsTail

/-- Tail of patterns shaped label + whitespace + dot-plus capture: the capture
runs to the end of line; when the rest is all whitespace the greedy whitespace
backtracks to the last character that is not a newline. -/
def dotPlusTail (rest : List Char) : Option (List Char) :=
  match rest.dropWhile isPySpace with
  | [] =>
    match rest.reverse.dropWhile (fun c => c = '\n') with
    | [] => none
    | c :: _ => some [c]
  | r => some (r.takeWhile (fun c => c ≠ '\n'))

/-- Split at the first comma: the text before it and the text after it. -/
def splitFirstComma : List Char → Option (List Char × List Char)
  | [] => none
  | c :: cs =>
    if c = ',' then some ([], cs)
    else (splitFirstComma cs).map (fun p => (c :: p.1, p.2))

/-- A POC group before a comma: greedy whitespace then a nonempty run of
non-comma characters; when the segment is all whitespace the greedy whitespace
backtracks one character. -/
def segBeforeComma (b : List Char) : Option (List Char) :=
  if b = [] then none
  else some (b.drop (min (b.takeWhile isPySpace).length (b.length - 1)))

/-- Tail of the POC pattern: three groups separated by the first two commas
after the label, the third running to end of line. -/
def pocTail (rest : List Char) : Option (List Char × List Char × List Char) :=
  (splitFirstComma rest).bind fun s1 =>
  (segBeforeComma s1.1).bind fun g1 =>
  (splitFirstComma s1.2).bind fun s2 =>
  (segBeforeComma s2.1).bind fun g2 =>
  (dotPlusTail s2.2).map fun g3 => (g1, g2, g3)

def pocAt (t : List Char) : Option (List Char × List Char × List Char) :=
  (stripLabelCI "poc:".data t).bind pocTail

def addressAt (t : List Char) : Option (List Char) :=
  (stripLabelCI "address:".data t).bind dotPlusTail

def customerAt (t : List Char) : Option (List Char) :=
  (stripLabelCI "customer:".data t).bind dotPlusTail

def contractAt (t : List Char) : Option (List Char) :=
  (stripLabelCI "contract:".data t).bind dotPlusTail

def valueAt (t : List Char) : Option (List Char) :=
  (stripLabelCI "value:".data t).bind dotPlusTail

def periodAt (t : List Char) : Option (List Char) :=
  (stripLabelCI "period:".data t).bind dotPlusTail

def contactAt (t : List Char) : Option (List Char) :=
  (stripLabelCI "contact:".data t).bind dotPlusTail

structure CompanyProfile where
  company_name : Option (List Char) := none
  uei : Option (List Char) := none
  duns : Option (List Char) := none
  naics : List (List Char) := []
  poc_name : Option (List Char) := none
  poc_email : Option (List Char) := none
  poc_phone : Option (List Char) := none
  address : Option (List Char) := none
  sam_registered : Option Bool := none
deriving DecidableEq

structure PastPerformance where
  customer : Option (List Char) := none
  contract : Option (List Char) := none
  value : Option (List Char) := none
  period : Option (List Char) := none
  contact : Option (List Char) := none
deriving DecidableEq

/-- parse_company_profile of src/main.py. -/
def parse_company_profile (t : List Char) : CompanyProfile :=
  { company_name :=
      match pySplit '\n' (pyStrip t) with
      | [] => none
      | l :: _ => some (pyStrip l)
    uei := reSearch ueiAt t
    duns := reSearch dunsAt t
    naics :=
      match reSearch naicsAt t with
      | some g => ((pySplit ',' g).map pyStrip).filter (fun c => c ≠ [])
      | none => []
    poc_name := (reSearch pocAt t).map (fun x => pyStrip x.1)
    poc_email := (reSearch pocAt t).map (fun x => pyStrip x.2.1)
    poc_phone := (reSearch pocAt t).map (fun x => pyStrip x.2.2)
    address := (reSearch addressAt t).map pyStrip
    sam_registered := (reSearch samAt t).map (fun w => decide (pyLower w = "registered".data)) }

/-- parse_past_performance of src/main.py. -/
def parse_past_performance (t : List Char) : PastPerformance :=
  { customer := (reSearch customerAt t).map pyStrip
    contract := (reSearch contractAt t).map pyStrip
    value := (reSearch valueAt t).map pyStrip
    period := (reSearch periodAt t).map pyStrip
    contact := (reSearch contactAt t).map pyStrip }

/-- Local-part class of the email regex. -/
def isLocalChar (c : Char) : Bool :=
  c.isAlpha || c.isDigit || c = '.' || c = '_' || c = '%' || c = '+' || c = '-'

/-- Domain class of the email regex. -/
def isDomainChar (c : Char) : Bool :=
  c.isAlpha || c.isDigit || c = '.' || c = '-'

/-- The domain side of the email regex: some dot splits it into a nonempty
domain part and a TLD of at least two letters running to the end. -/
def domainOk (r : List Char) : Bool :=
  (List.range r.length).any fun i =>
    r[i]? == some '.' && decide (0 < i) && (r.take i).all isDomainChar &&
    decide (2 ≤ r.length - (i + 1)) && (r.drop (i + 1)).all Char.isAlpha

/-- Full anchored match of the email regex body against the whole string. -/
def emailCore (s : List Char) : Bool :=
  (List.range s.length).any fun p =>
    s[p]? == some '@' && decide (0 < p) && (s.take p).all isLocalChar &&
    domainOk (s.drop (p + 1))

/-- validate_email of src/main.py; the trailing-newline case reflects that a
Python dollar anchor also matches just before one final newline. -/
def validate_email (e : List Char) : Bool :=
  if e = [] then false
  else emailCore e || (e.getLast? == some '\n' && emailCore e.dropLast)

/-- Python truthiness of an optional string: set and nonempty. -/
def truthy : Option (List Char) → Bool
  | none => false
  | some s => decide (s ≠ [])

/-- validate_fields of src/main.py: the fixed sequence of checks, each
appending at most one issue code. -/
def validate_fields (p : CompanyProfile) (pf : PastPerformance) : List (List Char) :=
  (if truthy p.company_name then [] else ["missing_company_name".data]) ++
  (if truthy p.uei then [] else ["missing_uei".data]) ++
  (if truthy p.duns then [] else ["missing_duns".data]) ++
  (if p.naics ≠ [] then [] else ["missing_naics".data]) ++
  (if truthy p.poc_name then [] else ["missing_poc_name".data]) ++
  (if truthy p.poc_email then
    (if validate_email (p.poc_email.getD []) then [] else ["invalid_poc_email".data])
   else ["missing_poc_email".data]) ++
  (if truthy p.poc_phone then [] else ["missing_poc_phone".data]) ++
  (if truthy p.address then [] else ["missing_address".data]) ++
  (if p.sam_registered ≠ none then [] else ["missing_sam_status".data]) ++
  (if truthy pf.customer then [] else ["missing_customer".data]) ++
  (if truthy pf.contract then [] else ["missing_contract".data]) ++
  (if truthy pf.value then [] else ["missing_contract_value".data]) ++
  (if truthy pf.period then [] else ["missing_contract_period".data]) ++
  (if truthy pf.contact then [] else ["missing_contract_contact".data])

/-- NAICS_SIN_MAPPING of src/main.py. -/
def NAICS_SIN_MAPPING : List (List Char × List Char) :=
  [("541511".data, "54151S".data),
   ("541512".data, "54151S".data),
   ("541611".data, "541611".data),
   ("518210".data, "518210C".data)]

/-- Dictionary lookup in the static table. -/
def lookupSin (naics : List Char) : Option (List Char) :=
  (NAICS_SIN_MAPPING.find? (fun e => e.1 == naics)).map (fun e => e.2)

/-- map_naics_to_sins of src/main.py. -/
def map_naics_to_sins (naics_codes : List (List Char)) : List (List Char) :=
  naics_codes.foldl
    (fun sins naics =>
      match lookupSin naics with
      | some sin => if sin ∈ sins then sins else sins ++ [sin]
      | none => sins)
    []

structure Checklist where
  has_company_info : Bool
  has_valid_naics : Bool
  has_poc_info : Bool
  has_sam_registration : Bool
  has_past_performance : Bool
  overall_ok : Bool
  total_issues : Nat
deriving DecidableEq

/-- generate_checklist of src/main.py. -/
def generate_checklist (p : CompanyProfile) (pf : PastPerformance)
    (issues : List (List Char)) : Checklist :=
  { has_company_info := truthy p.company_name && truthy p.uei && truthy p.duns
    has_valid_naics := decide (p.naics ≠ [])
    has_poc_info :=
      truthy p.poc_name && truthy p.poc_email && validate_email (p.poc_email.getD [])
    has_sam_registration := p.sam_registered == some true
    has_past_performance := truthy pf.customer && truthy pf.contract && truthy pf.value
    overall_ok := issues.length == 0
    total_issues := issues.length }

/-- Keep the first occurrence of every value, dropping later duplicates. -/
def dedupFirst {α : Type} [DecidableEq α] : List α → List α
  | [] => []
  | a :: l => a :: dedupFirst (l.filter (fun x => x ≠ a))
termination_by l => l.length
decreasing_by
  simp only [List.length_cons]
  exact Nat.lt_succ_of_le (List.length_filter_le _ _)

/-- Replace a set-but-empty optional string by the unset state. -/
def normO : Option (List Char) → Option (List Char)
  | some [] => none
  | o => o

/-- The email format stated by the spec: a nonempty local part of letters,
digits or ._%+- , an at sign, a nonempty domain of letters, digits, dots or
hyphens, a dot, and a TLD of at least two letters. -/
def specEmailFormat (e : List Char) : Prop :=
  ∃ l d t, e = l ++ '@' :: (d ++ '.' :: t) ∧
    l ≠ [] ∧ l.all isLocalChar = true ∧
    d ≠ [] ∧ d.all isDomainChar = true ∧
    2 ≤ t.length ∧ t.all Char.isAlpha = true

/-- Scenario A company-profile text. -/
def profileA : List Char :=
  ("Acme Corp\nUEI: ABC123\nDUNS: 123456789\nNAICS: 541511, 541512\n" ++
   "POC: Jane Doe, jane@acme.com, 555-1234\nAddress: 1 Main St\nSAM.gov: registered").data

/-- Scenario A past-performance text. -/
def perfA : List Char :=
  "Customer: DoD\nContract: C-100\nValue: $50000\nPeriod: 2023\nContact: John".data

/-! Helper lemmas. -/

theorem if_nil_iff (c : Prop) [Decidable c] (x : List Char) :
    ((if c then ([] : List (List Char)) else [x]) = [] ↔ c) := by
  by_cases h : c <;> simp [h]

theorem if_email_nil (o : Option (List Char)) (i m : List Char) :
    ((if truthy o = true then
        (if validate_email (o.getD []) = true then ([] : List (List Char)) else [i])
      else [m]) = []) ↔
      (truthy o = true ∧ validate_email (o.getD []) = true) := by
  by_cases h : truthy o = true
  · by_cases h2 : validate_email (o.getD []) = true <;> simp [h, h2]
  · simp [h]

theorem mem_if_nil (x : List Char) (c : Prop) [Decidable c] (y : List Char) :
    (x ∈ (if c then ([] : List (List Char)) else [y])) ↔ (¬ c ∧ x = y) := by
  by_cases h : c <;> simp [h]

theorem mem_if_email (x : List Char) (o : Option (List Char)) (i m : List Char) :
    (x ∈ (if truthy o = true then
        (if validate_email (o.getD []) = true then ([] : List (List Char)) else [i])
      else [m])) ↔
      ((truthy o = false ∧ x = m) ∨
       (truthy o = true ∧ validate_email (o.getD []) = false ∧ x = i)) := by
  by_cases h : truthy o = true
  · by_cases h2 : validate_email (o.getD []) = true <;> simp [h, h2]
  · simp [h, Bool.eq_false_iff.mpr h]

theorem truthy_email_iff (o : Option (List Char)) :
    (truthy o = true ∧ validate_email (o.getD []) = true) ↔
      ∃ e, o = some e ∧ e ≠ [] ∧ validate_email e = true := by
  cases o with
  | none => simp [truthy]
  | some s => by_cases h : s = [] <;> simp [truthy, h]

/-! Claim theorems. -/

/-- Claim C1: on the Scenario A profile and performance texts the pipeline
yields an empty issue list, recommended codes exactly ["54151S"], and an
overall-ok checklist. -/
theorem getgsa_C1 :
    validate_fields (parse_company_profile profileA) (parse_past_performance perfA) = [] ∧
    map_naics_to_sins (parse_company_profile profileA).naics = ["54151S".data] ∧
    (generate_checklist (parse_company_profile profileA) (parse_past_performance perfA)
      (validate_fields (parse_company_profile profileA) (parse_past_performance perfA))).overall_ok
      = true := by
  decide

/-- Claim C2: for every pair of records, the issue list is empty exactly when
all fifteen enumerated conditions hold; overall.ok is true exactly when the
issue list is empty, and total_issues always equals its length. -/
theorem getgsa_C2 (p : CompanyProfile) (pf : PastPerformance) :
    (validate_fields p pf = [] ↔
      (truthy p.company_name = true ∧ truthy p.uei = true ∧ truthy p.duns = true ∧
       p.naics ≠ [] ∧ truthy p.poc_name = true ∧
       (∃ e, p.poc_email = some e ∧ e ≠ [] ∧ validate_email e = true) ∧
       truthy p.poc_phone = true ∧ truthy p.address = true ∧ p.sam_registered ≠ none ∧
       truthy pf.customer = true ∧ truthy pf.contract = true ∧ truthy pf.value = true ∧
       truthy pf.period = true ∧ truthy pf.contact = true)) ∧
    ((generate_checklist p pf (validate_fields p pf)).overall_ok = true ↔
      validate_fields p pf = []) ∧
    (∀ issues, (generate_checklist p pf issues).total_issues = issues.length) := by
  refine ⟨?_, ?_, fun _ => rfl⟩
  · rw [← truthy_email_iff]
    simp [validate_fields, List.append_eq_nil, if_nil_iff, if_email_nil, and_assoc]
  · simp [generate_checklist, List.length_eq_zero]

/-- Claim C5 counterexample: on the empty profile text the companyName field is
not left unset; the extractor sets it to the empty string. -/
theorem getgsa_C5_cex : (parse_company_profile []).company_name = some [] := by
  decide

/-- Claim C5 (amended): on empty input every extracted field is unset except
companyName, which is set to the empty string; the performance extractor
leaves every field unset. -/
theorem getgsa_C5 :
    parse_company_profile [] = { company_name := some [] } ∧
    parse_past_performance [] = {} := by
  decide

/-- Membership is preserved by first-occurrence deduplication. -/
theorem mem_dedupFirst {α : Type} [DecidableEq α] (x : α) :
    ∀ l : List α, x ∈ dedupFirst l ↔ x ∈ l := by
  intro l
  induction l using dedupFirst.induct with
  | case1 => simp [dedupFirst]
  | case2 a l ih =>
    rw [dedupFirst]
    simp only [List.mem_cons, ih, List.mem_filter, decide_eq_true_eq]
    constructor
    · rintro (rfl | ⟨h, _⟩)
      · left; rfl
      · right; exact h
    · rintro (rfl | h)
      · left; rfl
      · by_cases hx : x = a
        · left; exact hx
        · right; exact ⟨h, hx⟩

/-- First-occurrence deduplication yields a duplicate-free list. -/
theorem nodup_dedupFirst {α : Type} [DecidableEq α] :
    ∀ l : List α, (dedupFirst l).Nodup := by
  intro l
  induction l using dedupFirst.induct with
  | case1 => simp [dedupFirst]
  | case2 a l ih =>
    rw [dedupFirst]
    refine List.nodup_cons.mpr ⟨?_, ih⟩
    rw [mem_dedupFirst]
    simp

/-- The accumulator fold of map_naics_to_sins builds the first-occurrence
deduplication of the mapped codes. -/
theorem foldl_sin_aux :
    ∀ (codes : List (List Char)) (acc : List (List Char)),
    codes.foldl
      (fun sins naics =>
        match lookupSin naics with
        | some sin => if sin ∈ sins then sins else sins ++ [sin]
        | none => sins)
      acc
      = acc ++ dedupFirst ((codes.filterMap lookupSin).filter (fun x => decide (x ∉ acc))) := by
  intro codes
  induction codes with
  | nil => intro acc; simp [dedupFirst]
  | cons c t ih =>
    intro acc
    rw [List.foldl_cons]
    cases h : lookupSin c with
    | none => simp only [h, List.filterMap_cons_none h, ih]
    | some s =>
      rw [List.filterMap_cons_some h]
      by_cases hs : s ∈ acc
      · simp only [h, if_pos hs, ih]
        congr 2
        rw [List.filter_cons]
        simp [hs]
      · simp only [h, if_neg hs, ih]
        rw [List.filter_cons, if_pos (show decide (s ∉ acc) = true by simp [hs])]
        rw [dedupFirst]
        have hpred : (fun x : List Char => decide (x ∉ acc ++ [s])) =
            (fun x => decide (x ≠ s) && decide (x ∉ acc)) := by
          funext x
          by_cases h1 : x = s <;> by_cases h2 : x ∈ acc <;>
            simp [h1, h2, List.mem_append]
        rw [hpred, ← List.filter_filter, List.append_assoc]
        rfl

/-- map_naics_to_sins is lookup-filterMap followed by first-occurrence
deduplication. -/
theorem map_naics_eq (codes : List (List Char)) :
    map_naics_to_sins codes = dedupFirst (codes.filterMap lookupSin) := by
  rw [map_naics_to_sins, foldl_sin_aux]
  simp only [List.nil_append]
  congr 1
  apply List.filter_eq_self.mpr
  intro a _
  simp

/-- Claim C3: for every input code list, map_naics_to_sins returns a list with
no duplicates, containing only program codes of the static table, each coming
from some input code (unmapped codes dropped, never an error), in
first-occurrence order of the mapped input codes. -/
theorem getgsa_C3 (codes : List (List Char)) :
    (map_naics_to_sins codes).Nodup ∧
    (∀ s, s ∈ map_naics_to_sins codes →
      s ∈ NAICS_SIN_MAPPING.map Prod.snd ∧ ∃ c, c ∈ codes ∧ lookupSin c = some s) ∧
    map_naics_to_sins codes = dedupFirst (codes.filterMap lookupSin) := by
  have he := map_naics_eq codes
  refine ⟨he ▸ nodup_dedupFirst _, ?_, he⟩
  intro s hs
  rw [he, mem_dedupFirst, List.mem_filterMap] at hs
  obtain ⟨c, hc, hl⟩ := hs
  refine ⟨?_, c, hc, hl⟩
  rw [lookupSin] at hl
  obtain ⟨e, hfind, hsnd⟩ := Option.map_eq_some'.mp hl
  exact List.mem_map.mpr ⟨e, List.mem_of_find?_eq_some hfind, hsnd⟩

/-- Claim C3 witness at a concrete code list. -/
theorem getgsa_C3_witness :
    "54151S".data ∈ NAICS_SIN_MAPPING.map Prod.snd ∧
    ∃ c, c ∈ ["541511".data, "999999".data, "541512".data] ∧
      lookupSin c = some "54151S".data :=
  (getgsa_C3 ["541511".data, "999999".data, "541512".data]).2.1 "54151S".data (by decide)

/-- Claim C6: SAM tri-state semantics.  When the SAM pattern matches a word,
sam_registered becomes a definite boolean that is true exactly when the word
lowercases to "registered"; with no match it stays unknown; the validator
emits missing_sam_status exactly in the unknown state (never for false); the
checklist's has_sam_registration accepts only the literal true state. -/
theorem getgsa_C6 (t : List Char) (p : CompanyProfile) (pf : PastPerformance) :
    (∀ w, reSearch samAt t = some w →
      (parse_company_profile t).sam_registered =
        some (decide (pyLower w = "registered".data))) ∧
    (reSearch samAt t = none → (parse_company_profile t).sam_registered = none) ∧
    ("missing_sam_status".data ∈ validate_fields p pf ↔ p.sam_registered = none) ∧
    ((generate_checklist p pf (validate_fields p pf)).has_sam_registration = true ↔
      p.sam_registered = some true) := by
  refine ⟨?_, ?_, ?_, ?_⟩
  · intro w hw; simp [parse_company_profile, hw]
  · intro hw; simp [parse_company_profile, hw]
  · simp [validate_fields, List.mem_append, mem_if_nil, mem_if_email]
  · simp [generate_checklist]

/-- Claim C6 witness: the word "no" resolves to the definite boolean false. -/
theorem getgsa_C6_witness :
    (parse_company_profile "SAM.gov: no".data).sam_registered = some false :=
  (getgsa_C6 "SAM.gov: no".data {} {}).1 "no".data (by decide)

/-- Every string of the spec's email format passes validate_email. -/
theorem specEmail_validate (e : List Char) (h : specEmailFormat e) :
    validate_email e = true := by
  obtain ⟨l, d, t, rfl, hl, hlc, hd, hdc, ht2, hta⟩ := h
  have hdom : domainOk (d ++ '.' :: t) = true := by
    rw [domainOk]
    apply List.any_eq_true.mpr
    refine ⟨d.length, List.mem_range.mpr (by simp), ?_⟩
    have hg2 : (d ++ '.' :: t)[d.length]? = some '.' := by
      rw [List.getElem?_append_right (Nat.le_refl _)]
      simp
    have htk : (d ++ '.' :: t).take d.length = d := List.take_left _ _
    have hdr : (d ++ '.' :: t).drop (d.length + 1) = t := by
      have he : d ++ '.' :: t = (d ++ ['.']) ++ t := by simp
      rw [he, List.drop_left' (by simp)]
    have hlen : 2 ≤ (d ++ '.' :: t).length - (d.length + 1) := by
      simp only [List.length_append, List.length_cons]
      omega
    simp [hg2, htk, hdr, hdc, hta, List.length_pos.mpr hd, hlen]
    omega
  have hcore : emailCore (l ++ '@' :: (d ++ '.' :: t)) = true := by
    rw [emailCore]
    apply List.any_eq_true.mpr
    refine ⟨l.length, List.mem_range.mpr (by simp), ?_⟩
    have hg1 : (l ++ '@' :: (d ++ '.' :: t))[l.length]? = some '@' := by
      rw [List.getElem?_append_right (Nat.le_refl _)]
      simp
    have htk : (l ++ '@' :: (d ++ '.' :: t)).take l.length = l := List.take_left _ _
    have hdr : (l ++ '@' :: (d ++ '.' :: t)).drop (l.length + 1) = d ++ '.' :: t := by
      have he : l ++ '@' :: (d ++ '.' :: t) = (l ++ ['@']) ++ (d ++ '.' :: t) := by simp
      rw [he, List.drop_left' (by simp)]
    simp [hg1, htk, hdr, hlc, hdom, List.length_pos.mpr hl]
  rw [validate_email, if_neg (by simp)]
  simp [hcore]

/-- Claim C7: missing_poc_email and invalid_poc_email never both appear, and a
set pocEmail matching the spec's email-format rule never yields
invalid_poc_email. -/
theorem getgsa_C7 (p : CompanyProfile) (pf : PastPerformance) (e : List Char) :
    ¬("missing_poc_email".data ∈ validate_fields p pf ∧
      "invalid_poc_email".data ∈ validate_fields p pf) ∧
    (p.poc_email = some e → specEmailFormat e →
      "invalid_poc_email".data ∉ validate_fields p pf) := by
  constructor
  · rintro ⟨h1, h2⟩
    simp only [validate_fields, List.mem_append, mem_if_nil, mem_if_email] at h1 h2
    simp at h1 h2
    rw [h1] at h2
    simp at h2
  · intro hpe hspec hmem
    simp only [validate_fields, List.mem_append, mem_if_nil, mem_if_email] at hmem
    simp at hmem
    have hv := specEmail_validate e hspec
    rw [hpe] at hmem
    simp [hv] at hmem

/-- Claim C7 witness at a concrete well-formed email. -/
theorem getgsa_C7_witness :
    "invalid_poc_email".data ∉
      validate_fields { poc_email := some "a@bc.de".data } {} :=
  (getgsa_C7 { poc_email := some "a@bc.de".data } {} "a@bc.de".data).2 rfl
    ⟨"a".data, "bc".data, "de".data, by decide, by decide, by decide, by decide,
      by decide, by decide, by decide⟩

/-- reSearch returns exactly the result of the pattern at the leftmost
position where it matches: the first match is used and later occurrences of
a label are ignored. -/
theorem reSearch_first {α : Type} (m : List Char → Option α) :
    ∀ (t : List Char) (r : α),
      reSearch m t = some r ↔
        ∃ i, i ≤ t.length ∧ m (List.drop i t) = some r ∧
          ∀ j, j < i → m (List.drop j t) = none := by
  intro t
  induction t with
  | nil =>
    intro r
    constructor
    · intro h
      exact ⟨0, Nat.le_refl 0, h, fun j hj => absurd hj (Nat.not_lt_zero j)⟩
    · rintro ⟨i, hi, hp, _⟩
      have hz : i = 0 := Nat.le_zero.mp hi
      subst hz
      exact hp
  | cons c cs ih =>
    intro r
    rw [reSearch]
    cases h : m (c :: cs) with
    | some r2 =>
      simp only
      constructor
      · intro hr
        exact ⟨0, Nat.zero_le _, h.trans hr, fun j hj => absurd hj (Nat.not_lt_zero j)⟩
      · rintro ⟨i, hi, hp, hall⟩
        cases i with
        | zero =>
          rw [List.drop_zero] at hp
          rw [h] at hp
          exact hp
        | succ i2 =>
          have h0 := hall 0 (Nat.succ_pos _)
          rw [List.drop_zero, h] at h0
          exact absurd h0 (by simp)
    | none =>
      simp only
      rw [ih]
      constructor
      · rintro ⟨i, hi, hp, hall⟩
        refine ⟨i + 1, Nat.succ_le_succ hi, ?_, ?_⟩
        · simpa [List.drop_succ_cons] using hp
        · intro j hj
          cases j with
          | zero => simpa using h
          | succ j2 =>
            have hj2 := hall j2 (Nat.lt_of_succ_lt_succ hj)
            simpa [List.drop_succ_cons] using hj2
      · rintro ⟨i, hi, hp, hall⟩
        cases i with
        | zero =>
          rw [List.drop_zero, h] at hp
          exact absurd hp (by simp)
        | succ i2 =>
          refine ⟨i2, Nat.le_of_succ_le_succ hi, ?_, ?_⟩
          · simpa [List.drop_succ_cons] using hp
          · intro j hj
            have hj1 := hall (j + 1) (Nat.succ_lt_succ hj)
            simpa [List.drop_succ_cons] using hj1

/-- Claim C4 counterexample: extraction is not line-oriented.  On the text
"Address:\n1 Main St" the extracted address is "1 Main St", yet the first
(and only) line containing the label is "Address:", which does not contain
the extracted value: the match spans two lines. -/
theorem getgsa_C4_cex :
    (parse_company_profile "Address:\n1 Main St".data).address = some "1 Main St".data ∧
    (pySplit '\n' "Address:\n1 Main St".data).head? = some "Address:".data ∧
    ¬ "1 Main St".data <:+: "Address:".data := by
  refine ⟨by decide, by decide, by decide⟩

/-- Claim C4 (amended): each field is extracted by an independent search of
the whole text, and the search uses only the pattern's leftmost match, even
when a label appears several times; a match may span multiple lines. -/
theorem getgsa_C4 (t : List Char) :
    ((parse_company_profile t).address = (reSearch addressAt t).map pyStrip ∧
     (parse_company_profile t).uei = reSearch ueiAt t ∧
     (parse_company_profile t).duns = reSearch dunsAt t ∧
     (parse_company_profile t).sam_registered =
       (reSearch samAt t).map (fun w => decide (pyLower w = "registered".data)) ∧
     (parse_past_performance t).customer = (reSearch customerAt t).map pyStrip ∧
     (parse_past_performance t).contract = (reSearch contractAt t).map pyStrip) ∧
    (∀ r, reSearch addressAt t = some r ↔
      ∃ i, i ≤ t.length ∧ addressAt (List.drop i t) = some r ∧
        ∀ j, j < i → addressAt (List.drop j t) = none) :=
  ⟨⟨rfl, rfl, rfl, rfl, rfl, rfl⟩, fun r => reSearch_first addressAt t r⟩

/-- Claim C4 witness: the leftmost-match characterisation at position 0. -/
theorem getgsa_C4_witness :
    reSearch addressAt "Address: 1 Main St".data = some "1 Main St".data :=
  ((getgsa_C4 "Address: 1 Main St".data).2 "1 Main St".data).mpr
    ⟨0, by decide, by decide, fun j hj => absurd hj (Nat.not_lt_zero j)⟩

/-- A list fixed by dropWhile has a head on which the predicate fails. -/
theorem head_false_of_dropWhile_eq (p : Char → Bool) (l : List Char) (c : Char)
    (h : l.dropWhile p = l) (hh : l.head? = some c) : p c = false := by
  cases l with
  | nil => simp at hh
  | cons c2 cs =>
    have hc : c2 = c := by simpa using hh
    rw [List.dropWhile_cons] at h
    by_cases hp : p c2
    · rw [if_pos hp] at h
      have hle : (List.dropWhile p cs).length ≤ cs.length :=
        (List.dropWhile_sublist p).length_le
      have hlen := congrArg List.length h
      simp at hlen
      omega
    · rw [← hc]
      exact Bool.eq_false_iff.mpr hp

/-- A prefix of a list fixed by dropWhile is itself fixed by dropWhile. -/
theorem dropWhile_eq_self_of_prefix (p : Char → Bool) (l k : List Char)
    (h : l.dropWhile p = l) (hk : k <+: l) : k.dropWhile p = k := by
  cases k with
  | nil => rfl
  | cons c cs =>
    have hh : l.head? = some c := by
      obtain ⟨r, hr⟩ := hk
      rw [← hr]
      rfl
    rw [List.dropWhile_cons, if_neg (by simp [head_false_of_dropWhile_eq p l c h hh])]

/-- dropWhile is idempotent. -/
theorem dropWhile_idem (p : Char → Bool) (l : List Char) :
    (l.dropWhile p).dropWhile p = l.dropWhile p := by
  induction l with
  | nil => rfl
  | cons c cs ih =>
    rw [List.dropWhile_cons]
    by_cases h : p c
    · simp [h, ih]
    · simp [List.dropWhile_cons, h]

/-- Python str.strip is idempotent. -/
theorem pyStrip_idem (s : List Char) : pyStrip (pyStrip s) = pyStrip s := by
  rw [pyStrip, pyStrip]
  have h1 : ((s.dropWhile isPySpace).reverse.dropWhile isPySpace).reverse.dropWhile isPySpace
      = ((s.dropWhile isPySpace).reverse.dropWhile isPySpace).reverse := by
    apply dropWhile_eq_self_of_prefix isPySpace (s.dropWhile isPySpace)
    · exact dropWhile_idem isPySpace s
    · have hsuf : (s.dropWhile isPySpace).reverse.dropWhile isPySpace <:+
          (s.dropWhile isPySpace).reverse := List.dropWhile_suffix isPySpace
      have hpre := List.reverse_prefix.mpr hsuf
      rwa [List.reverse_reverse] at hpre
  rw [h1, List.reverse_reverse, dropWhile_idem]

/-- Claim C8 counterexample: the NAICS capture is not the rest of the line.
On "NAICS: 541511, abc" the code extracts ["541511"], while the
comma-segments of the full line text after the label would give
["541511", "abc"]: the capture stops at the first character outside the
digits/commas/whitespace class. -/
theorem getgsa_C8_cex :
    (parse_company_profile "NAICS: 541511, abc".data).naics = ["541511".data] ∧
    ((pySplit ',' "541511, abc".data).map pyStrip).filter (fun c => c ≠ []) =
      ["541511".data, "abc".data] ∧
    ["541511".data] ≠ ["541511".data, "abc".data] := by
  refine ⟨by decide, by decide, by decide⟩

/-- Claim C8 (amended): naicsCodes is the captured digits/commas/whitespace
run split on commas, trimmed, with empty segments dropped, order and
duplicates preserved; consequently its entries are never empty and are fixed
by trimming. -/
theorem getgsa_C8 (t : List Char) :
    (∀ c, c ∈ (parse_company_profile t).naics → c ≠ [] ∧ pyStrip c = c) ∧
    (∀ g, reSearch naicsAt t = some g →
      (parse_company_profile t).naics =
        ((pySplit ',' g).map pyStrip).filter (fun c => c ≠ [])) := by
  constructor
  · intro c hc
    rw [parse_company_profile] at hc
    simp only at hc
    cases hs : reSearch naicsAt t with
    | none => rw [hs] at hc; simp at hc
    | some g =>
      rw [hs] at hc
      simp only [List.mem_filter, List.mem_map, decide_eq_true_eq] at hc
      obtain ⟨⟨seg, _, rfl⟩, hne⟩ := hc
      exact ⟨hne, pyStrip_idem seg⟩
  · intro g hg
    rw [parse_company_profile]
    simp only [hg]

/-- Claim C8 witness at concrete NAICS text with a duplicate code. -/
theorem getgsa_C8_witness :
    ("541511".data ≠ [] ∧ pyStrip "541511".data = "541511".data) ∧
    (parse_company_profile "NAICS: 541511, 541511".data).naics =
      ((pySplit ',' "541511, 541511".data).map pyStrip).filter (fun c => c ≠ []) :=
  ⟨(getgsa_C8 "NAICS: 541511, 541511".data).1 "541511".data (by decide),
   (getgsa_C8 "NAICS: 541511, 541511".data).2 "541511, 541511".data (by decide)⟩

/-- Claim C9 counterexample: on "POC:,a,b" the text after the label has three
comma-separated segments, yet no POC field is set, because the first group of
the pattern needs a nonempty non-comma run before the first comma. -/
theorem getgsa_C9_cex :
    (pySplit ',' ",a,b".data).length = 3 ∧
    (parse_company_profile "POC:,a,b".data).poc_name = none ∧
    (parse_company_profile "POC:,a,b".data).poc_email = none ∧
    (parse_company_profile "POC:,a,b".data).poc_phone = none := by
  refine ⟨by decide, by decide, by decide, by decide⟩

/-- Claim C9 (amended): POC extraction is all-or-nothing — the three fields
are set exactly when the POC pattern matches, in which case each group is
trimmed independently and the third group captures the text after the second
comma up to the end of line (after skipping whitespace). -/
theorem getgsa_C9 (t : List Char) :
    ((parse_company_profile t).poc_name.isSome = (parse_company_profile t).poc_email.isSome ∧
     (parse_company_profile t).poc_email.isSome = (parse_company_profile t).poc_phone.isSome) ∧
    (reSearch pocAt t = none →
      (parse_company_profile t).poc_name = none ∧
      (parse_company_profile t).poc_email = none ∧
      (parse_company_profile t).poc_phone = none) ∧
    (∀ a b c, reSearch pocAt t = some (a, b, c) →
      (parse_company_profile t).poc_name = some (pyStrip a) ∧
      (parse_company_profile t).poc_email = some (pyStrip b) ∧
      (parse_company_profile t).poc_phone = some (pyStrip c)) ∧
    (∀ r, r.dropWhile isPySpace ≠ [] →
      dotPlusTail r = some ((r.dropWhile isPySpace).takeWhile (fun ch => ch ≠ '\n'))) := by
  refine ⟨⟨?_, ?_⟩, ?_, ?_, ?_⟩
  · simp [parse_company_profile]
  · simp [parse_company_profile]
  · intro h
    simp [parse_company_profile, h]
  · intro a b c h
    simp [parse_company_profile, h]
  · intro r hr
    rw [dotPlusTail]
    cases hd : r.dropWhile isPySpace with
    | nil => exact absurd hd hr
    | cons x xs => simp

/-- Claim C9 witness at a concrete three-segment POC line. -/
theorem getgsa_C9_witness :
    ((parse_company_profile "POC: a, b, c".data).poc_name = some "a".data ∧
     (parse_company_profile "POC: a, b, c".data).poc_email = some "b".data ∧
     (parse_company_profile "POC: a, b, c".data).poc_phone = some "c".data) ∧
    dotPlusTail " c".data = some "c".data :=
  ⟨(getgsa_C9 "POC: a, b, c".data).2.2.1 "a".data "b".data "c".data (by decide),
   (getgsa_C9 "POC: a, b, c".data).2.2.2 " c".data (by decide)⟩

/-- normO either fixes its argument or turns a set-but-empty value unset. -/
theorem normO_eq_or (o : Option (List Char)) :
    normO o = o ∨ (o = some [] ∧ normO o = none) := by
  cases o with
  | none => left; rfl
  | some s =>
    cases s with
    | nil => right; exact ⟨rfl, rfl⟩
    | cons c cs => left; rfl

/-- Claim C10: the validator and the checklist distinguish optional string
fields only by truthiness, so replacing any set-but-empty field by the unset
state changes neither the issue list nor the checklist; and extraction can
produce such a set-but-empty value: companyName on whitespace-only input. -/
theorem getgsa_C10 (p : CompanyProfile) (pf : PastPerformance) (issues : List (List Char)) :
    (validate_fields { p with company_name := normO p.company_name } pf = validate_fields p pf ∧
     generate_checklist { p with company_name := normO p.company_name } pf issues =
       generate_checklist p pf issues) ∧
    (validate_fields { p with uei := normO p.uei } pf = validate_fields p pf ∧
     generate_checklist { p with uei := normO p.uei } pf issues =
       generate_checklist p pf issues) ∧
    (validate_fields { p with duns := normO p.duns } pf = validate_fields p pf ∧
     generate_checklist { p with duns := normO p.duns } pf issues =
       generate_checklist p pf issues) ∧
    (validate_fields { p with poc_name := normO p.poc_name } pf = validate_fields p pf ∧
     generate_checklist { p with poc_name := normO p.poc_name } pf issues =
       generate_checklist p pf issues) ∧
    (validate_fields { p with poc_email := normO p.poc_email } pf = validate_fields p pf ∧
     generate_checklist { p with poc_email := normO p.poc_email } pf issues =
       generate_checklist p pf issues) ∧
    (validate_fields { p with poc_phone := normO p.poc_phone } pf = validate_fields p pf ∧
     generate_checklist { p with poc_phone := normO p.poc_phone } pf issues =
       generate_checklist p pf issues) ∧
    (validate_fields { p with address := normO p.address } pf = validate_fields p pf ∧
     generate_checklist { p with address := normO p.address } pf issues =
       generate_checklist p pf issues) ∧
    (validate_fields p { pf with customer := normO pf.customer } = validate_fields p pf ∧
     generate_checklist p { pf with customer := normO pf.customer } issues =
       generate_checklist p pf issues) ∧
    (validate_fields p { pf with contract := normO pf.contract } = validate_fields p pf ∧
     generate_checklist p { pf with contract := normO pf.contract } issues =
       generate_checklist p pf issues) ∧
    (validate_fields p { pf with value := normO pf.value } = validate_fields p pf ∧
     generate_checklist p { pf with value := normO pf.value } issues =
       generate_checklist p pf issues) ∧
    (validate_fields p { pf with period := normO pf.period } = validate_fields p pf ∧
     generate_checklist p { pf with period := normO pf.period } issues =
       generate_checklist p pf issues) ∧
    (validate_fields p { pf with contact := normO pf.contact } = validate_fields p pf ∧
     generate_checklist p { pf with contact := normO pf.contact } issues =
       generate_checklist p pf issues) ∧
    (parse_company_profile " ".data).company_name = some [] := by
  refine ⟨⟨?_, ?_⟩, ⟨?_, ?_⟩, ⟨?_, ?_⟩, ⟨?_, ?_⟩, ⟨?_, ?_⟩, ⟨?_, ?_⟩, ⟨?_, ?_⟩, ⟨?_, ?_⟩, ⟨?_, ?_⟩, ⟨?_, ?_⟩, ⟨?_, ?_⟩, ⟨?_, ?_⟩, by decide⟩
  · rcases normO_eq_or p.company_name with h | ⟨hf, h⟩
    · rw [h]
    · rw [h]
      simp [validate_fields, hf, truthy]
  · rcases normO_eq_or p.company_name with h | ⟨hf, h⟩
    · rw [h]
    · rw [h]
      simp [generate_checklist, hf, truthy]
  · rcases normO_eq_or p.uei with h | ⟨hf, h⟩
    · rw [h]
    · rw [h]
      simp [validate_fields, hf, truthy]
  · rcases normO_eq_or p.uei with h | ⟨hf, h⟩
    · rw [h]
    · rw [h]
      simp [generate_checklist, hf, truthy]
  · rcases normO_eq_or p.duns with h | ⟨hf, h⟩
    · rw [h]
    · rw [h]
      simp [validate_fields, hf, truthy]
  · rcases normO_eq_or p.duns with h | ⟨hf, h⟩
    · rw [h]
    · rw [h]
      simp [generate_checklist, hf, truthy]
  · rcases normO_eq_or p.poc_name with h | ⟨hf, h⟩
    · rw [h]
    · rw [h]
      simp [validate_fields, hf, truthy]
  · rcases normO_eq_or p.poc_name with h | ⟨hf, h⟩
    · rw [h]
    · rw [h]
      simp [generate_checklist, hf, truthy]
  · rcases normO_eq_or p.poc_email with h | ⟨hf, h⟩
    · rw [h]
    · rw [h]
      simp [validate_fields, hf, truthy]
  · rcases normO_eq_or p.poc_email with h | ⟨hf, h⟩
    · rw [h]
    · rw [h]
      simp [generate_checklist, hf, truthy]
  · rcases normO_eq_or p.poc_phone with h | ⟨hf, h⟩
    · rw [h]
    · rw [h]
      simp [validate_fields, hf, truthy]
  · rcases normO_eq_or p.poc_phone with h | ⟨hf, h⟩
    · rw [h]
    · rw [h]
      simp [generate_checklist, hf, truthy]
  · rcases normO_eq_or p.address with h | ⟨hf, h⟩
    · rw [h]
    · rw [h]
      simp [validate_fields, hf, truthy]
  · rcases normO_eq_or p.address with h | ⟨hf, h⟩
    · rw [h]
    · rw [h]
      simp [generate_checklist, hf, truthy]
  · rcases normO_eq_or pf.customer with h | ⟨hf, h⟩
    · rw [h]
    · rw [h]
      simp [validate_fields, hf, truthy]
  · rcases normO_eq_or pf.customer with h | ⟨hf, h⟩
    · rw [h]
    · rw [h]
      simp [generate_checklist, hf, truthy]
  · rcases normO_eq_or pf.contract with h | ⟨hf, h⟩
    · rw [h]
    · rw [h]
      simp [validate_fields, hf, truthy]
  · rcases normO_eq_or pf.contract with h | ⟨hf, h⟩
    · rw [h]
    · rw [h]
      simp [generate_checklist, hf, truthy]
  · rcases normO_eq_or pf.value with h | ⟨hf, h⟩
    · rw [h]
    · rw [h]
      simp [validate_fields, hf, truthy]
  · rcases normO_eq_or pf.value with h | ⟨hf, h⟩
    · rw [h]
    · rw [h]
      simp [generate_checklist, hf, truthy]
  · rcases normO_eq_or pf.period with h | ⟨hf, h⟩
    · rw [h]
    · rw [h]
      simp [validate_fields, hf, truthy]
  · rcases normO_eq_or pf.period with h | ⟨hf, h⟩
    · rw [h]
    · rw [h]
      simp [generate_checklist, hf, truthy]
  · rcases normO_eq_or pf.contact with h | ⟨hf, h⟩
    · rw [h]
    · rw [h]
      simp [validate_fields, hf, truthy]
  · rcases normO_eq_or pf.contact with h | ⟨hf, h⟩
    · rw [h]
    · rw [h]
      simp [generate_checklist, hf, truthy]
